import Mathlib

/-!
Verification development for the daily-tracker service (src/main.py).

The analytics engine of the service is embedded shallowly:

* activity records (rows of the `activities` table) become the structure `Rec`;
  calendar dates are represented by day numbers (`ℤ`), produced from parsed
  date strings by `rataDie`;
* `GET /summary/{date}` (`get_daily_summary`, main.py lines 881-926) becomes
  `get_daily_summary` / `dailySummaryOn`;
* `GET /trends` (`get_trends`, main.py lines 928-1010) becomes `get_trends` /
  `trendFor`;
* the pydantic validation of `ActivityCreate` (main.py lines 190-202) becomes
  `validateActivity`;
* SQL `GROUP BY` is modelled by grouping on the list of first occurrences of
  the key (`firstDedup`), `SUM`/`COUNT`/`AVG` by list sums and lengths, and
  `ORDER BY` by `List.insertionSort`;
* Python's `round(x, 1)` (round-half-to-even) becomes `round1` on `ℚ`;
* Python's `str.strip` becomes `pyStrip` (ASCII whitespace, which is what the
  repository's inputs contain).

Real numbers of the Python code are modelled by `ℚ`; the counterexamples below
only involve values far away from representation boundaries, so they are
insensitive to the float/rational distinction.
-/

/-- One row of the `activities` table, restricted to the columns the analytics
endpoints read.  `activity_date` is a day number (consecutive integers denote
consecutive calendar days). -/
structure Rec where
  user_id : Nat
  category : String
  duration_minutes : Nat
  mood_rating : Option Nat
  activity_date : Int
deriving DecidableEq

/-- A calendar date as parsed from a `YYYY-M-D` string. -/
structure Date where
  year : Nat
  month : Nat
  day : Nat
deriving DecidableEq

/-- Leap-year test, as in the Gregorian calendar used by Python `datetime`. -/
def isLeapYear (y : Nat) : Bool :=
  (y % 4 == 0 && y % 100 != 0) || (y % 400 == 0)

/-- Number of days of month `m` of year `y` (Python `datetime` rejects a day
beyond this bound, raising `ValueError` from `strptime`). -/
def daysInMonth (y m : Nat) : Nat :=
  if m = 2 then (if isLeapYear y then 29 else 28)
  else if m = 4 ∨ m = 6 ∨ m = 9 ∨ m = 11 then 30
  else 31

/-- Days in all full years before year `y` (proleptic Gregorian). -/
def daysBeforeYear (y : Nat) : Nat :=
  365 * (y - 1) + (y - 1) / 4 - (y - 1) / 100 + (y - 1) / 400

/-- Days in all full months of year `y` before month `m`. -/
def daysBeforeMonth (y m : Nat) : Nat :=
  ((List.range (m - 1)).map (fun i => daysInMonth y (i + 1))).sum

/-- Day number of a calendar date (rata die); consecutive calendar days map to
consecutive integers, which is all the analytics code relies on. -/
def rataDie (dt : Date) : Int :=
  ((daysBeforeYear dt.year + daysBeforeMonth dt.year dt.month + dt.day : Nat) : Int)

/-- Split a character list at every `-`, keeping empty segments, mirroring how
`strptime` consumes the literal `-` separators of the format `%Y-%m-%d`. -/
def splitDash : List Char → List (List Char)
  | [] => [[]]
  | c :: cs =>
    match splitDash cs with
    | [] => [[]]
    | g :: gs => if c = '-' then [] :: g :: gs else (c :: g) :: gs

/-- Numeric value of a digit list (most significant first). -/
def digitsToNat (l : List Char) : Nat :=
  l.foldl (fun n c => 10 * n + (c.toNat - 48)) 0

/-- Model of `datetime.strptime(s, '%Y-%m-%d').date()`: the year is exactly
four digits, month and day are one or two digits (`strptime`'s regexps for
`%m`/`%d`), the whole string is consumed, and the resulting numbers must form
a real calendar date (`datetime` additionally requires `year ≥ 1`).  Returns
`none` exactly when `strptime` raises `ValueError`. -/
def parseDate (s : String) : Option Date :=
  match splitDash s.data with
  | [ys, ms, ds] =>
    if ys.length = 4 ∧ ys.all Char.isDigit ∧
        1 ≤ ms.length ∧ ms.length ≤ 2 ∧ ms.all Char.isDigit ∧
        1 ≤ ds.length ∧ ds.length ≤ 2 ∧ ds.all Char.isDigit then
      let y := digitsToNat ys
      let m := digitsToNat ms
      let d := digitsToNat ds
      if 1 ≤ y ∧ 1 ≤ m ∧ m ≤ 12 ∧ 1 ≤ d ∧ d ≤ daysInMonth y m then
        some ⟨y, m, d⟩
      else none
    else none
  | _ => none

/-- Round a rational to the nearest integer, ties to the even integer; this is
the rounding Python's builtin `round` performs. -/
def roundHalfEven (q : ℚ) : ℤ :=
  let f := ⌊q⌋
  let frac := q - (f : ℚ)
  if frac < 1 / 2 then f
  else if 1 / 2 < frac then f + 1
  else if f % 2 = 0 then f else f + 1

/-- Python's `round(x, 1)`: round to one decimal place, ties to even. -/
def round1 (q : ℚ) : ℚ :=
  ((roundHalfEven (q * 10) : ℚ)) / 10

/-- First-occurrence deduplication (fuel-based so that it reduces
definitionally): the distinct keys of a SQL `GROUP BY`, listed in first
appearance order. -/
def firstDedupAux [DecidableEq α] : Nat → List α → List α
  | 0, _ => []
  | _ + 1, [] => []
  | fuel + 1, x :: xs => x :: firstDedupAux fuel (xs.filter (fun y => decide (y ≠ x)))

/-- Distinct elements of a list, first occurrences kept, order preserved. -/
def firstDedup [DecidableEq α] (l : List α) : List α :=
  firstDedupAux l.length l

/-- Sum of the `duration_minutes` column over a list of rows. -/
def sumDur (l : List Rec) : Nat :=
  (l.map (·.duration_minutes)).sum

/-- Python `str.strip()` (restricted to ASCII whitespace): drop leading and
trailing whitespace characters. -/
def pyStrip (s : String) : String :=
  ⟨((s.data.dropWhile Char.isWhitespace).reverse.dropWhile Char.isWhitespace).reverse⟩

/-- The fixed category registry `CATEGORIES` of main.py lines 227-238:
name, icon, color, in insertion order. -/
def CATEGORIES : List (String × String × String) :=
  [ ("Sleep", "🛏", "#667eea")
  , ("Physical Activity/Exercise", "🏃‍♂", "#764ba2")
  , ("Nutrition/Meals", "🍎", "#f093fb")
  , ("Work/Productivity", "💼", "#f5576c")
  , ("Personal Care/Hygiene", "🧼", "#4facfe")
  , ("Social/Leisure", "🎉", "#00d4aa")
  , ("Household Chores/Maintenance", "🧹", "#ff6b6b")
  , ("Mindfulness/Mental Well-being", "🧘‍♀", "#a8e6cf")
  , ("Transportation/Commute", "🚗", "#ffd93d")
  , ("Learning/Skill Development", "📚", "#6c5ce7")
  ]

/-- The ordered key set of the registry (what `for category in CATEGORIES`
iterates over). -/
def categoryNames : List String :=
  CATEGORIES.map (·.1)

/-- Per-category entry of a `DailySummary` (values of the `categories` dict). -/
structure CatSummary where
  duration_minutes : Nat
  entry_count : Nat
  average_mood : Option ℚ
  percentage : ℚ
deriving DecidableEq

/-- The `DailySummary` response model (main.py lines 214-218); the `categories`
dict is modelled as an association list in insertion order. -/
structure DailySummaryT where
  date : Date
  total_logged_minutes : Nat
  categories : List (String × CatSummary)
  completion_percentage : ℚ
deriving DecidableEq

/-- The `TrendData` response model (main.py lines 220-225). -/
structure TrendData where
  category : String
  weekly_average : ℚ
  monthly_average : ℚ
  streak_days : Nat
  data_points : List (Int × Nat)
deriving DecidableEq

/-- Error surfaced when the date path parameter cannot be parsed. -/
inductive ApiErr where
  | invalidDate
deriving DecidableEq

/-- Rows of `activities` for one user and one exact date (the `WHERE` clause of
the daily-summary query). -/
def dayRecs (u : Nat) (d : Int) (recs : List Rec) : List Rec :=
  recs.filter (fun r => decide (r.user_id = u ∧ r.activity_date = d))

/-- One output row of the grouped daily-summary query:
`SELECT category, SUM(duration_minutes), COUNT(*), AVG(mood_rating) ...
GROUP BY category`.  `avg_mood` is `none` when every `mood_rating` in the
group is NULL (SQL `AVG` ignores NULLs). -/
structure GroupRow where
  category : String
  total_minutes : Nat
  entry_count : Nat
  avg_mood : Option ℚ
deriving DecidableEq

/-- The grouped result set of the daily-summary query over the day's rows. -/
def groupRows (dr : List Rec) : List GroupRow :=
  (firstDedup (dr.map (·.category))).map (fun c =>
    let g := dr.filter (fun r => decide (r.category = c))
    let moods := g.filterMap (·.mood_rating)
    { category := c
    , total_minutes := sumDur g
    , entry_count := g.length
    , avg_mood := if moods = [] then none
                  else some (((moods.map (Nat.cast)).sum : ℚ) / (moods.length : ℚ)) })

/-- `total_logged_minutes = sum(row['total_minutes'] for row in category_data)`
(main.py line 898). -/
def totalLogged (rows : List GroupRow) : Nat :=
  (rows.map (·.total_minutes)).sum

/-- The dict entry built for one grouped row (main.py lines 901-907): the mood
average is rounded to one decimal and replaced by `None` when falsy, and the
percentage is `round(total/T*100, 1)` guarded by `T > 0`. -/
def rowEntry (T : Nat) (row : GroupRow) : String × CatSummary :=
  (row.category,
   { duration_minutes := row.total_minutes
   , entry_count := row.entry_count
   , average_mood :=
       match row.avg_mood with
       | none => none
       | some a => if a = 0 then none else some (round1 a)
   , percentage :=
       if 0 < T then round1 ((row.total_minutes : ℚ) / (T : ℚ) * 100) else 0 })

/-- Zero entry synthesized for a registered category absent from the grouped
result (main.py lines 909-917). -/
def zeroCat : CatSummary :=
  { duration_minutes := 0, entry_count := 0, average_mood := none, percentage := 0 }

/-- The full `categories` dict: grouped entries in group order, then one zero
entry for every registered category not already present. -/
def summaryCats (dr : List Rec) (T : Nat) : List (String × CatSummary) :=
  let grouped := (groupRows dr).map (rowEntry T)
  grouped ++
    (categoryNames.filter (fun c => decide (c ∉ grouped.map Prod.fst))).map
      (fun c => (c, zeroCat))

/-- The daily summary computed for user `u` on the calendar date `dt`
(the body of `get_daily_summary` after the date string has been accepted). -/
def dailySummaryOn (u : Nat) (dt : Date) (recs : List Rec) : DailySummaryT :=
  let dr := dayRecs u (rataDie dt) recs
  let rows := groupRows dr
  let T := totalLogged rows
  let cats := summaryCats dr T
  { date := dt
  , total_logged_minutes := T
  , categories := cats
  , completion_percentage :=
      round1 (((cats.countP (fun e => decide (0 < e.2.duration_minutes))) : ℚ)
        / (categoryNames.length : ℚ) * 100) }

/-- `GET /summary/{summary_date}` for user `u` over record store contents
`recs`: an unparseable date string makes the request fail (ValueError from
`strptime` / the DB rejecting the literal), a parseable one yields the
summary. -/
def get_daily_summary (u : Nat) (summary_date : String) (recs : List Rec) :
    Except ApiErr DailySummaryT :=
  match parseDate summary_date with
  | none => .error .invalidDate
  | some dt => .ok (dailySummaryOn u dt recs)

/-- Rows of one user and one category on or after `cutoff`
(`WHERE user_id = %s AND category = %s AND activity_date >= %s`). -/
def windowRecs (u : Nat) (c : String) (cutoff : Int) (recs : List Rec) : List Rec :=
  recs.filter (fun r => decide (r.user_id = u ∧ r.category = c ∧ cutoff ≤ r.activity_date))

/-- Per-date totals of a row set:
`SELECT activity_date, SUM(duration_minutes) ... GROUP BY activity_date`. -/
def dailyTotals (l : List Rec) : List (Int × Nat) :=
  (firstDedup (l.map (·.activity_date))).map (fun d =>
    (d, sumDur (l.filter (fun r => decide (r.activity_date = d)))))

/-- `AVG(daily_total)` over the grouped per-date totals, rounded to one
decimal; `0` when there is no row (SQL `AVG` of an empty set is NULL and the
Python code replaces a falsy value by `0`). -/
def avgDailyTotal (l : List Rec) : ℚ :=
  let ts := dailyTotals l
  if ts.length = 0 then 0
  else round1 (((ts.map (fun p => (p.2 : ℚ))).sum) / (ts.length : ℚ))

/-- All activity dates (with multiplicity) of one user and category. -/
def catDates (u : Nat) (c : String) (recs : List Rec) : List Int :=
  (recs.filter (fun r => decide (r.user_id = u ∧ r.category = c))).map (·.activity_date)

/-- `SELECT DISTINCT activity_date ... ORDER BY activity_date DESC`. -/
def distinctDatesDesc (u : Nat) (c : String) (recs : List Rec) : List Int :=
  List.insertionSort (fun a b => a ≥ b) (firstDedup (catDates u c recs))

/-- The streak loop of main.py lines 976-983: walk the descending distinct
date list, counting as long as each entry matches the expected day, and stop
at the first mismatch. -/
def streakLoop : List Int → Int → Nat
  | [], _ => 0
  | d :: rest, current => if d = current then streakLoop rest (current - 1) + 1 else 0

/-- The `TrendData` entry computed for one registered category (the body of
the per-category loop of `get_trends`); `today` is `date.today()`. -/
def trendFor (today : Int) (u : Nat) (recs : List Rec) (c : String) : TrendData :=
  { category := c
  , weekly_average := avgDailyTotal (windowRecs u c (today - 7) recs)
  , monthly_average := avgDailyTotal (windowRecs u c (today - 30) recs)
  , streak_days := streakLoop (distinctDatesDesc u c recs) today
  , data_points :=
      List.insertionSort (fun p q => p.1 ≤ q.1) (dailyTotals (windowRecs u c (today - 7) recs)) }

/-- `GET /trends`: one `TrendData` per registered category, in registry
order. -/
def get_trends (today : Int) (u : Nat) (recs : List Rec) : List TrendData :=
  categoryNames.map (trendFor today u recs)

/-- Payload of `POST /activities` and `PUT /activities/{id}` before
validation (the `ActivityCreate` pydantic model, main.py lines 190-202).
`duration_minutes` and `mood_rating` are integers as sent by the client;
`activity_date` is an optional day number. -/
structure ActivityPayload where
  category : String
  duration_minutes : Int
  notes : Option String
  mood_rating : Option Int
  photo_url : Option String
  activity_date : Option Int
deriving DecidableEq

/-- `Field(..., ge=1, le=1440)` on `duration_minutes`. -/
def durationOk (p : ActivityPayload) : Bool :=
  decide (1 ≤ p.duration_minutes ∧ p.duration_minutes ≤ 1440)

/-- `Field(None, max_length=1000)` on `notes`. -/
def notesOk (p : ActivityPayload) : Bool :=
  match p.notes with
  | none => true
  | some s => decide (s.length ≤ 1000)

/-- `Field(None, ge=1, le=5)` on `mood_rating`. -/
def moodOk (p : ActivityPayload) : Bool :=
  match p.mood_rating with
  | none => true
  | some m => decide (1 ≤ m ∧ m ≤ 5)

/-- The `validate_category` validator (main.py lines 198-202): reject a
missing/whitespace-only category, otherwise keep the stripped string. -/
def validate_category (v : String) : Option String :=
  if pyStrip v = "" then none else some (pyStrip v)

/-- Full validation of an `ActivityCreate` payload: every field constraint and
the category validator must pass; on success the stored payload carries the
stripped category.  `none` models pydantic rejecting the request with a 422. -/
def validateActivity (p : ActivityPayload) : Option ActivityPayload :=
  match validate_category p.category with
  | none => none
  | some c =>
    if durationOk p && notesOk p && moodOk p then
      some { p with category := c }
    else none

/-- The reference streak algorithm of the specification (section 4.3): start
at `today`, and while the current day is in the distinct-date set, count it
and step back one day.  The fuel `s.length + 1` is an upper bound on the
number of iterations: each successful membership test consumes a distinct
element of `s`. -/
def streakRefAux (s : List Int) : Nat → Int → Nat
  | 0, _ => 0
  | fuel + 1, current =>
    if current ∈ s then streakRefAux s fuel (current - 1) + 1 else 0

/-- Reference streak: length of the run `today, today-1, ...` contained in the
date set `s`. -/
def streakRef (s : List Int) (today : Int) : Nat :=
  streakRefAux s (s.length + 1) today

/-- Lookup in the `categories` dict of a daily summary. -/
def lookupCat (c : String) : List (String × CatSummary) → Option CatSummary
  | [] => none
  | e :: rest => if c = e.1 then some e.2 else lookupCat c rest

/-- The run of `N` consecutive day numbers ending at `today`, descending. -/
def runList (N : Nat) (today : Int) : List Int :=
  (List.range N).map (fun i : Nat => today - (i : Int))

/-- The monthly/weekly average as the specification claims it (claim C3):
per-date totals over the dates in the closed window `[lo, hi]` on which the
user logged the category, averaged over those active dates only, rounded to
one decimal, `0` if no active date exists.  This follows the claim's words;
the code's window has no upper bound. -/
def activeDayMeanWindow (lo hi : Int) (u : Nat) (c : String) (recs : List Rec) : ℚ :=
  let wr := recs.filter (fun r =>
    decide (r.user_id = u ∧ r.category = c ∧ lo ≤ r.activity_date ∧ r.activity_date ≤ hi))
  let ts := dailyTotals wr
  if ts.length = 0 then 0
  else round1 (((ts.map (fun p => (p.2 : ℚ))).sum) / (ts.length : ℚ))

/-! Infrastructure lemmas about deduplication, grouping, rounding and lookup. -/

theorem mem_firstDedupAux [DecidableEq α] (a : α) :
    ∀ (fuel : Nat) (l : List α), l.length ≤ fuel →
      (a ∈ firstDedupAux fuel l ↔ a ∈ l) := by
  intro fuel
  induction fuel with
  | zero =>
    intro l hl
    have : l = [] := List.eq_nil_of_length_eq_zero (Nat.le_zero.mp hl)
    subst this
    simp [firstDedupAux]
  | succ n ih =>
    intro l hl
    cases l with
    | nil => simp [firstDedupAux]
    | cons x xs =>
      have hlen : (xs.filter (fun y => decide (y ≠ x))).length ≤ n :=
        le_trans (List.length_filter_le _ _) (Nat.succ_le_succ_iff.mp hl)
      simp only [firstDedupAux, List.mem_cons, ih _ hlen, List.mem_filter,
        decide_eq_true_eq]
      by_cases hax : a = x <;> simp [hax]

theorem mem_firstDedup [DecidableEq α] (a : α) (l : List α) :
    a ∈ firstDedup l ↔ a ∈ l :=
  mem_firstDedupAux a l.length l le_rfl

theorem nodup_firstDedupAux [DecidableEq α] :
    ∀ (fuel : Nat) (l : List α), l.length ≤ fuel →
      (firstDedupAux fuel l).Nodup := by
  intro fuel
  induction fuel with
  | zero => intro l _; simp [firstDedupAux]
  | succ n ih =>
    intro l hl
    cases l with
    | nil => simp [firstDedupAux]
    | cons x xs =>
      have hlen : (xs.filter (fun y => decide (y ≠ x))).length ≤ n :=
        le_trans (List.length_filter_le _ _) (Nat.succ_le_succ_iff.mp hl)
      simp only [firstDedupAux, List.nodup_cons]
      refine ⟨fun hmem => ?_, ih _ hlen⟩
      have := (mem_firstDedupAux x n _ hlen).mp hmem
      simp [List.mem_filter] at this

theorem nodup_firstDedup [DecidableEq α] (l : List α) : (firstDedup l).Nodup :=
  nodup_firstDedupAux l.length l le_rfl

theorem filter_map_comm (f : β → κ) (p : κ → Bool) (l : List β) :
    (l.map f).filter p = (l.filter (fun b => p (f b))).map f := by
  induction l with
  | nil => simp
  | cons b bs ih =>
    simp only [List.map_cons, List.filter_cons]
    cases h : p (f b) <;> simp [h, ih]

theorem sum_map_filter_partition (p : β → Bool) (f : β → ℕ) :
    ∀ l : List β,
      ((l.filter p).map f).sum + ((l.filter (fun b => !(p b))).map f).sum
        = (l.map f).sum := by
  intro l
  induction l with
  | nil => simp
  | cons b bs ih =>
    simp only [List.filter_cons]
    cases h : p b <;> simp [h, List.map_cons, List.sum_cons] <;> omega

theorem sum_groupsAux [DecidableEq κ] (key : β → κ) (f : β → ℕ) :
    ∀ (fuel : Nat) (l : List β), l.length ≤ fuel →
      ((firstDedupAux fuel (l.map key)).map
          (fun k => ((l.filter (fun b => decide (key b = k))).map f).sum)).sum
        = (l.map f).sum := by
  intro fuel
  induction fuel with
  | zero =>
    intro l hl
    have : l = [] := List.eq_nil_of_length_eq_zero (Nat.le_zero.mp hl)
    subst this
    simp [firstDedupAux]
  | succ n ih =>
    intro l hl
    cases l with
    | nil => simp [firstDedupAux]
    | cons b bs =>
      have hbs : bs.length ≤ n := Nat.succ_le_succ_iff.mp hl
      have hfil : (bs.filter (fun b2 => decide (key b2 ≠ key b))).length ≤ n :=
        le_trans (List.length_filter_le _ _) hbs
      simp only [List.map_cons, firstDedupAux]
      rw [filter_map_comm key (fun y => decide (y ≠ key b)) bs]
      simp only [List.map_cons, List.sum_cons]
      have hcongr :
          ∀ k ∈ firstDedupAux n ((bs.filter (fun b2 => decide (key b2 ≠ key b))).map key),
            (((b :: bs).filter (fun x => decide (key x = k))).map f).sum
              = (((bs.filter (fun b2 => decide (key b2 ≠ key b))).filter
                    (fun x => decide (key x = k))).map f).sum := by
        intro k hk
        have hkmem := (mem_firstDedupAux k n _
          (by simpa using hfil)).mp hk
        rw [List.mem_map] at hkmem
        obtain ⟨b2, hb2, rfl⟩ := hkmem
        rw [List.mem_filter] at hb2
        have hne : key b2 ≠ key b := by simpa using hb2.2
        have hstep : (b :: bs).filter (fun x => decide (key x = key b2))
            = bs.filter (fun x => decide (key x = key b2)) := by
          simp only [List.filter_cons]
          have hne2 : ¬ key b = key b2 := fun h => hne h.symm
          have hdec : (decide (key b = key b2)) = false := decide_eq_false hne2
          simp [hdec]
        have heq : (bs.filter (fun b2 => decide (key b2 ≠ key b))).filter
              (fun x => decide (key x = key b2))
            = bs.filter (fun x => decide (key x = key b2)) := by
          rw [List.filter_filter]
          apply List.filter_congr
          intro x _
          by_cases hx : key x = key b2
          · have hxb : ¬ key x = key b := by rw [hx]; exact hne
            simp [hx, hxb, hne]
          · simp [hx]
        rw [hstep, ← heq]
      rw [List.map_congr_left hcongr, ih _ hfil]
      have hhead : ((b :: bs).filter (fun x => decide (key x = key b))).map f
          = f b :: ((bs.filter (fun x => decide (key x = key b))).map f) := by
        simp [List.filter_cons]
      rw [hhead]
      simp only [List.sum_cons]
      have hpart := sum_map_filter_partition (fun x => decide (key x = key b)) f bs
      have hnotdec : bs.filter (fun b2 => decide (key b2 ≠ key b))
          = bs.filter (fun b2 => !(decide (key b2 = key b))) := by
        apply List.filter_congr
        intro x _
        simp [decide_not]
      rw [hnotdec]
      omega

theorem sum_groups [DecidableEq κ] (key : β → κ) (f : β → ℕ) (l : List β) :
    ((firstDedup (l.map key)).map
        (fun k => ((l.filter (fun b => decide (key b = k))).map f).sum)).sum
      = (l.map f).sum := by
  have := sum_groupsAux key f (l.map key).length l (by simp)
  simpa [firstDedup] using this

theorem abs_roundHalfEven_sub (q : ℚ) : |((roundHalfEven q : ℤ) : ℚ) - q| ≤ 1 / 2 := by
  unfold roundHalfEven
  have hfl : ((⌊q⌋ : ℤ) : ℚ) ≤ q := Int.floor_le q
  have hfu : q < ((⌊q⌋ : ℤ) : ℚ) + 1 := Int.lt_floor_add_one q
  by_cases h1 : q - ((⌊q⌋ : ℤ) : ℚ) < 1 / 2
  · simp only [h1, if_true]
    rw [abs_sub_comm, abs_of_nonneg (by linarith)]
    linarith
  · by_cases h2 : 1 / 2 < q - ((⌊q⌋ : ℤ) : ℚ)
    · simp only [h1, h2, if_false, if_true]
      rw [abs_of_nonneg (by push_cast; linarith)]
      push_cast
      linarith
    · have heq : q - ((⌊q⌋ : ℤ) : ℚ) = 1 / 2 := le_antisymm (not_lt.mp h2) (not_lt.mp h1)
      simp only [h1, h2, if_false]
      by_cases h3 : ⌊q⌋ % 2 = 0
      · simp only [h3, if_true]
        rw [abs_sub_comm, abs_of_nonneg (by linarith)]
        linarith
      · simp only [h3, if_false]
        rw [abs_of_nonneg (by push_cast; linarith)]
        push_cast
        linarith

theorem abs_round1_sub (q : ℚ) : |round1 q - q| ≤ 1 / 20 := by
  have h := abs_roundHalfEven_sub (q * 10)
  have h10 : round1 q - q = (((roundHalfEven (q * 10) : ℤ) : ℚ) - q * 10) / 10 := by
    unfold round1
    ring
  rw [h10, abs_div]
  rw [abs_of_pos (by norm_num : (0:ℚ) < 10)]
  linarith

theorem round1_zero : round1 0 = 0 := by
  norm_num [round1, roundHalfEven]

theorem abs_sum_round1_sub (l : List ℚ) :
    |(l.map round1).sum - l.sum| ≤ (l.length : ℚ) * (1 / 20) := by
  induction l with
  | nil => simp
  | cons x xs ih =>
    simp only [List.map_cons, List.sum_cons, List.length_cons]
    have hx := abs_round1_sub x
    have htri : |round1 x + (xs.map round1).sum - (x + xs.sum)|
        ≤ |round1 x - x| + |(xs.map round1).sum - xs.sum| := by
      have : round1 x + (xs.map round1).sum - (x + xs.sum)
          = (round1 x - x) + ((xs.map round1).sum - xs.sum) := by ring
      rw [this]
      exact abs_add _ _
    push_cast
    calc |round1 x + (xs.map round1).sum - (x + xs.sum)|
        ≤ |round1 x - x| + |(xs.map round1).sum - xs.sum| := htri
      _ ≤ 1 / 20 + (xs.length : ℚ) * (1 / 20) := by
          exact add_le_add hx ih
      _ = ((xs.length : ℚ) + 1) * (1 / 20) := by ring

theorem lookupCat_append_of_not_mem (c : String) (l₁ l₂ : List (String × CatSummary))
    (h : c ∉ l₁.map Prod.fst) : lookupCat c (l₁ ++ l₂) = lookupCat c l₂ := by
  induction l₁ with
  | nil => simp
  | cons e rest ih =>
    simp only [List.map_cons, List.mem_cons] at h
    push_neg at h
    simp only [List.cons_append, lookupCat, if_neg h.1]
    exact ih h.2

theorem lookupCat_isSome_of_mem (c : String) (l : List (String × CatSummary))
    (h : c ∈ l.map Prod.fst) : (lookupCat c l).isSome := by
  induction l with
  | nil => simp at h
  | cons e rest ih =>
    simp only [List.map_cons, List.mem_cons] at h
    by_cases hc : c = e.1
    · simp [lookupCat, hc]
    · simp only [lookupCat, if_neg hc]
      exact ih (h.resolve_left hc)

theorem lookupCat_map_const (c : String) (z : CatSummary) (names : List String)
    (h : c ∈ names) : lookupCat c (names.map (fun n => (n, z))) = some z := by
  induction names with
  | nil => simp at h
  | cons n rest ih =>
    by_cases hc : c = n
    · simp [lookupCat, hc]
    · simp only [List.map_cons, lookupCat, if_neg hc]
      exact ih (by simpa [hc] using h)

theorem streakLoop_eq_zero_of_not_mem (S : List Int) (x : Int) (h : x ∉ S) :
    streakLoop S x = 0 := by
  cases S with
  | nil => rfl
  | cons d rest =>
    have hd : d ≠ x := fun hdx => h (hdx ▸ List.mem_cons_self d rest)
    simp [streakLoop, hd]

theorem runList_succ (n : Nat) (today : Int) :
    runList (n + 1) today = today :: runList n (today - 1) := by
  unfold runList
  rw [List.range_succ_eq_map]
  simp only [List.map_cons, List.map_map, Nat.cast_zero, sub_zero]
  congr 1
  apply List.map_congr_left
  intro i _
  show today - ((i + 1 : Nat) : Int) = today - 1 - (i : Int)
  push_cast
  ring

theorem streakLoop_runList (N : Nat) : ∀ today : Int, streakLoop (runList N today) today = N := by
  induction N with
  | zero => intro today; rfl
  | succ n ih =>
    intro today
    rw [runList_succ]
    simp [streakLoop, ih (today - 1)]

theorem nodup_runList (N : Nat) (today : Int) : (runList N today).Nodup := by
  have hinj : Function.Injective (fun i : Nat => today - (i : Int)) := by
    intro i j h
    simp only at h
    omega
  exact List.Nodup.map hinj (List.nodup_range N)

theorem sorted_runList (N : Nat) (today : Int) :
    List.Sorted (fun a b : Int => a ≥ b) (runList N today) := by
  unfold runList
  rw [List.Sorted, List.pairwise_map]
  refine List.Pairwise.imp ?_ (List.pairwise_lt_range N)
  intro a b hab
  simp only [Function.onFun, ge_iff_le]
  omega

theorem mem_runList (N : Nat) (today d : Int) :
    d ∈ runList N today ↔ ∃ i : Nat, i < N ∧ d = today - (i : Int) := by
  unfold runList
  rw [List.mem_map]
  constructor
  · rintro ⟨i, hi, h⟩
    exact ⟨i, List.mem_range.mp hi, h.symm⟩
  · rintro ⟨i, hi, h⟩
    exact ⟨i, List.mem_range.mpr hi, h.symm⟩

theorem insertionSort_ge_eq_of_mem_iff (D L : List Int)
    (hnd : D.Nodup) (hndL : L.Nodup)
    (hsortL : List.Sorted (fun a b : Int => a ≥ b) L)
    (hmem : ∀ d, d ∈ D ↔ d ∈ L) :
    List.insertionSort (fun a b : Int => a ≥ b) D = L := by
  haveI hanti : IsAntisymm Int (fun a b : Int => a ≥ b) :=
    ⟨fun a b h1 h2 => le_antisymm h2 h1⟩
  have hperm1 : List.Perm (List.insertionSort (fun a b : Int => a ≥ b) D) D :=
    List.perm_insertionSort _ D
  have hndS : (List.insertionSort (fun a b : Int => a ≥ b) D).Nodup :=
    hperm1.nodup_iff.mpr hnd
  have hpermL : List.Perm (List.insertionSort (fun a b : Int => a ≥ b) D) L := by
    rw [List.perm_ext_iff_of_nodup hndS hndL]
    intro a
    rw [hperm1.mem_iff, hmem]
  exact List.eq_of_perm_of_sorted hpermL (List.sorted_insertionSort _ D) hsortL

theorem streakRefAux_run (D : List Int) :
    ∀ (N : Nat) (current : Int) (fuel : Nat),
      (∀ i : Nat, i < N → (current - (i : Int)) ∈ D) →
      (current - (N : Int)) ∉ D → N + 1 ≤ fuel →
      streakRefAux D fuel current = N := by
  intro N
  induction N with
  | zero =>
    intro current fuel hin hout hfuel
    obtain ⟨m, rfl⟩ : ∃ m, fuel = m + 1 := ⟨fuel - 1, by omega⟩
    have hc : current ∉ D := by simpa using hout
    simp [streakRefAux, hc]
  | succ n ih =>
    intro current fuel hin hout hfuel
    obtain ⟨m, rfl⟩ : ∃ m, fuel = m + 1 := ⟨fuel - 1, by omega⟩
    have hcur : current ∈ D := by simpa using hin 0 (Nat.succ_pos n)
    simp only [streakRefAux, if_pos hcur]
    have hstep : streakRefAux D m (current - 1) = n := by
      apply ih (current - 1) m ?_ ?_ (by omega)
      · intro i hi
        have hcast : current - 1 - (i : Int) = current - ((i + 1 : Nat) : Int) := by
          push_cast
          ring
        rw [hcast]
        exact hin (i + 1) (by omega)
      · have hcast : current - 1 - (n : Int) = current - ((n + 1 : Nat) : Int) := by
          push_cast
          ring
        rw [hcast]
        exact hout
    rw [hstep]

theorem eq_trendFor_of_mem (today : Int) (u : Nat) (recs : List Rec) (c : String)
    (t : TrendData) (ht : t ∈ get_trends today u recs) (hc : t.category = c) :
    t = trendFor today u recs c := by
  unfold get_trends at ht
  rw [List.mem_map] at ht
  obtain ⟨c2, _, rfl⟩ := ht
  have hcc : c2 = c := hc
  rw [hcc]

theorem sum_percentage_zeros (names : List String) :
    ((names.map (fun n => (n, zeroCat))).map (fun e => e.2.percentage)).sum = 0 := by
  induction names with
  | nil => rfl
  | cons n rest ih =>
    rw [List.map_cons, List.map_cons, List.sum_cons, ih, add_zero]
    rfl

theorem sum_map_div_mul (rows : List GroupRow) (T : ℚ) :
    (rows.map (fun row => (row.total_minutes : ℚ) / T * 100)).sum
      = ((rows.map (fun row => (row.total_minutes : ℚ))).sum) / T * 100 := by
  induction rows with
  | nil => simp
  | cons r rs ih =>
    simp only [List.map_cons, List.sum_cons, ih]
    ring

theorem keys_groupRows (dr : List Rec) (T : Nat) :
    ((groupRows dr).map (rowEntry T)).map Prod.fst
      = firstDedup (dr.map (·.category)) := by
  unfold groupRows
  rw [List.map_map, List.map_map]
  exact (List.map_congr_left (fun c _ => rfl)).trans (List.map_id _)

theorem mem_summaryCats_percentage (dr : List Rec) (T : Nat) (e : String × CatSummary)
    (he : e ∈ summaryCats dr T) :
    e.2.percentage
      = if 0 < T then round1 ((e.2.duration_minutes : ℚ) / (T : ℚ) * 100) else 0 := by
  unfold summaryCats at he
  rw [List.mem_append] at he
  rcases he with hg | hm
  · rw [List.mem_map] at hg
    obtain ⟨row, _, rfl⟩ := hg
    rfl
  · rw [List.mem_map] at hm
    obtain ⟨c, _, rfl⟩ := hm
    by_cases hT : 0 < T
    · simp only [if_pos hT]
      show (0 : ℚ) = round1 (((0 : Nat) : ℚ) / (T : ℚ) * 100)
      rw [Nat.cast_zero, zero_div, zero_mul, round1_zero]
    · simp only [if_neg hT]
      rfl

theorem avgDailyTotal_eq (l : List Rec) :
    avgDailyTotal l
      = if (firstDedup (l.map (·.activity_date))).length = 0 then 0
        else round1 ((sumDur l : ℚ)
          / ((firstDedup (l.map (·.activity_date))).length : ℚ)) := by
  simp only [avgDailyTotal, dailyTotals]
  have hlen : ((firstDedup (l.map (·.activity_date))).map (fun d =>
      (d, sumDur (l.filter (fun r => decide (r.activity_date = d)))))).length
      = (firstDedup (l.map (·.activity_date))).length := List.length_map _ _
  rw [hlen]
  by_cases h0 : (firstDedup (l.map (·.activity_date))).length = 0
  · rw [if_pos h0, if_pos h0]
  · rw [if_neg h0, if_neg h0]
    congr 1
    congr 1
    rw [List.map_map]
    have hpt : ((firstDedup (l.map (·.activity_date))).map
          ((fun p : Int × Nat => (p.2 : ℚ)) ∘ (fun d =>
            (d, sumDur (l.filter (fun r => decide (r.activity_date = d))))))).sum
        = ((firstDedup (l.map (·.activity_date))).map (fun d =>
            ((sumDur (l.filter (fun r => decide (r.activity_date = d))) : Nat) : ℚ))).sum := by
      rfl
    rw [hpt]
    have hcast : ((firstDedup (l.map (·.activity_date))).map (fun d =>
          ((sumDur (l.filter (fun r => decide (r.activity_date = d))) : Nat) : ℚ))).sum
        = ((((firstDedup (l.map (·.activity_date))).map (fun d =>
            sumDur (l.filter (fun r => decide (r.activity_date = d))))).sum : Nat) : ℚ) := by
      rw [Nat.cast_list_sum, List.map_map]
      rfl
    rw [hcast]
    have hsum : ((firstDedup (l.map (·.activity_date))).map (fun d =>
          sumDur (l.filter (fun r => decide (r.activity_date = d))))).sum
        = sumDur l := by
      unfold sumDur
      exact sum_groups (·.activity_date) (·.duration_minutes) l
    rw [hsum]

theorem sumDur_pos_of_mem (l : List Rec) (r : Rec) (hr : r ∈ l)
    (hd : 1 ≤ r.duration_minutes) : 0 < sumDur l := by
  unfold sumDur
  have hmem : r.duration_minutes ∈ l.map (·.duration_minutes) :=
    List.mem_map.mpr ⟨r, hr, rfl⟩
  have := List.single_le_sum (fun y _ => Nat.zero_le y) _ hmem
  omega

theorem validateActivity_isSome_iff (p : ActivityPayload) :
    (validateActivity p).isSome = true
      ↔ (pyStrip p.category ≠ "" ∧ durationOk p = true ∧ notesOk p = true ∧ moodOk p = true) := by
  unfold validateActivity validate_category
  by_cases hs : pyStrip p.category = ""
  · simp [hs]
  · rw [if_neg hs]
    show (if durationOk p && notesOk p && moodOk p
        then some { p with category := pyStrip p.category } else none).isSome = true ↔ _
    by_cases hb : (durationOk p && notesOk p && moodOk p) = true
    · rw [if_pos hb]
      simp only [Bool.and_eq_true] at hb
      simp [hs, hb.1.1, hb.1.2, hb.2]
    · rw [if_neg hb]
      simp only [Option.isSome_none]
      constructor
      · intro h
        exact absurd h (by simp)
      · rintro ⟨-, hd, hn2, hm2⟩
        rw [hd, hn2, hm2] at hb
        simp at hb

/-- Claim C1: for every user and category, if the distinct-date set of that
category's records does not contain today, then the streak_days reported by
GetTrends for that category is 0, regardless of any prior run. -/
theorem C1_no_record_today_streak_zero (today : Int) (u : Nat) (recs : List Rec)
    (c : String) (h : today ∉ catDates u c recs) :
    ∀ t ∈ get_trends today u recs, t.category = c → t.streak_days = 0 := by
  intro t ht hc
  rw [eq_trendFor_of_mem today u recs c t ht hc]
  show streakLoop (distinctDatesDesc u c recs) today = 0
  apply streakLoop_eq_zero_of_not_mem
  intro hmem
  unfold distinctDatesDesc at hmem
  rw [List.mem_insertionSort] at hmem
  exact h ((mem_firstDedup today _).mp hmem)

/-- Witness for C1: a user whose only Sleep record is dated yesterday has a
Sleep streak of 0 today, despite the prior run. -/
theorem C1_witness :
    (100 : Int) ∉ catDates 1 "Sleep" [⟨1, "Sleep", 60, none, 99⟩]
    ∧ (trendFor 100 1 [⟨1, "Sleep", 60, none, 99⟩] "Sleep").streak_days = 0 :=
  ⟨by decide,
   C1_no_record_today_streak_zero 100 1 [⟨1, "Sleep", 60, none, 99⟩] "Sleep" (by decide)
     (trendFor 100 1 [⟨1, "Sleep", 60, none, 99⟩] "Sleep") (by with_unfolding_all decide) rfl⟩

/-- Claim C6: GetDailySummary fails with InvalidDate exactly on date strings
that cannot be parsed into a calendar date, and succeeds with the summary
(whose date field is the parsed date) on every parseable string. -/
theorem C6_invalid_date_error (u : Nat) (s : String) (recs : List Rec) :
    (parseDate s = none → get_daily_summary u s recs = .error .invalidDate)
    ∧ (∀ dt : Date, parseDate s = some dt →
        get_daily_summary u s recs = .ok (dailySummaryOn u dt recs)
        ∧ (dailySummaryOn u dt recs).date = dt) := by
  constructor
  · intro h
    unfold get_daily_summary
    rw [h]
  · intro dt h
    unfold get_daily_summary
    rw [h]
    exact ⟨rfl, rfl⟩

/-- Witness for C6: a valid date string succeeds, an invalid calendar date
(February 30) fails with InvalidDate. -/
theorem C6_witness :
    parseDate "2024-01-02" = some ⟨2024, 1, 2⟩
    ∧ (get_daily_summary 1 "2024-01-02" [] = .ok (dailySummaryOn 1 ⟨2024, 1, 2⟩ [])
        ∧ (dailySummaryOn 1 ⟨2024, 1, 2⟩ []).date = ⟨2024, 1, 2⟩)
    ∧ parseDate "2024-02-30" = none
    ∧ get_daily_summary 1 "2024-02-30" [] = .error .invalidDate :=
  ⟨by decide,
   (C6_invalid_date_error 1 "2024-01-02" []).2 ⟨2024, 1, 2⟩ (by decide),
   by decide,
   (C6_invalid_date_error 1 "2024-02-30" []).1 (by decide)⟩

/-- Claim C8: each per-category percentage is total_minutes over
total_logged_minutes times 100 rounded to one decimal when
total_logged_minutes is positive, and the zero-denominator case is
special-cased to 0, so the division branch is never taken on a zero
denominator. -/
theorem C8_percentage_guarded (u : Nat) (dt : Date) (recs : List Rec) :
    (∀ e ∈ (dailySummaryOn u dt recs).categories,
        0 < (dailySummaryOn u dt recs).total_logged_minutes →
        e.2.percentage = round1 ((e.2.duration_minutes : ℚ)
          / ((dailySummaryOn u dt recs).total_logged_minutes : ℚ) * 100))
    ∧ ((dailySummaryOn u dt recs).total_logged_minutes = 0 →
        ∀ e ∈ (dailySummaryOn u dt recs).categories, e.2.percentage = 0) := by
  have hmem : ∀ e ∈ (dailySummaryOn u dt recs).categories,
      e.2.percentage = if 0 < (dailySummaryOn u dt recs).total_logged_minutes
        then round1 ((e.2.duration_minutes : ℚ)
          / ((dailySummaryOn u dt recs).total_logged_minutes : ℚ) * 100)
        else 0 := by
    intro e he
    exact mem_summaryCats_percentage _ _ e he
  constructor
  · intro e he hT
    rw [hmem e he, if_pos hT]
  · intro hT e he
    rw [hmem e he, if_neg (by omega)]

/-- Witness for C8: one 60-minute Sleep record gives Sleep percentage
round(60/60*100, 1) = 100. -/
theorem C8_witness :
    ("Sleep", (⟨60, 1, none, 100⟩ : CatSummary))
        ∈ (dailySummaryOn 1 ⟨1, 1, 1⟩ [⟨1, "Sleep", 60, none, 1⟩]).categories
    ∧ 0 < (dailySummaryOn 1 ⟨1, 1, 1⟩ [⟨1, "Sleep", 60, none, 1⟩]).total_logged_minutes
    ∧ ("Sleep", (⟨60, 1, none, 100⟩ : CatSummary)).2.percentage
        = round1 ((("Sleep", (⟨60, 1, none, 100⟩ : CatSummary)).2.duration_minutes : ℚ)
          / ((dailySummaryOn 1 ⟨1, 1, 1⟩ [⟨1, "Sleep", 60, none, 1⟩]).total_logged_minutes : ℚ)
          * 100) :=
  ⟨by with_unfolding_all decide, by decide,
   (C8_percentage_guarded 1 ⟨1, 1, 1⟩ [⟨1, "Sleep", 60, none, 1⟩]).1 _
     (by with_unfolding_all decide) (by decide)⟩

/-- Claim C9: activity creation validates the category only by rejecting
empty or whitespace-only strings; every other string is accepted with its
stripped form stored, with no check against the registry, and consequently a
daily summary's categories map can contain keys outside the registry. -/
theorem C9_category_free_form :
    (∀ s : String, pyStrip s = "" → validate_category s = none)
    ∧ (∀ s : String, pyStrip s ≠ "" → validate_category s = some (pyStrip s))
    ∧ (∀ p : ActivityPayload, durationOk p = true → notesOk p = true → moodOk p = true →
        pyStrip p.category ≠ "" →
        validateActivity p = some { p with category := pyStrip p.category })
    ∧ (lookupCat "Gaming"
        (dailySummaryOn 1 ⟨1, 1, 1⟩ [⟨1, "Gaming", 60, none, 1⟩]).categories).isSome = true
    ∧ "Gaming" ∉ categoryNames := by
  refine ⟨?_, ?_, ?_, by decide, by decide⟩
  · intro s hs
    unfold validate_category
    rw [if_pos hs]
  · intro s hs
    unfold validate_category
    rw [if_neg hs]
  · intro p hd hn hm hs
    unfold validateActivity validate_category
    rw [if_neg hs]
    show (if durationOk p && notesOk p && moodOk p
        then some { p with category := pyStrip p.category } else none) = _
    rw [hd, hn, hm]
    simp

/-- Witness for C9: a whitespace-only category is rejected, a padded
free-form category is accepted stripped. -/
theorem C9_witness :
    pyStrip "   " = ""
    ∧ validate_category "   " = none
    ∧ pyStrip " Gaming " ≠ ""
    ∧ validate_category " Gaming " = some (pyStrip " Gaming ")
    ∧ pyStrip " Gaming " = "Gaming" :=
  ⟨by decide,
   C9_category_free_form.1 "   " (by decide),
   by decide,
   C9_category_free_form.2.1 " Gaming " (by decide),
   by decide⟩

/-- Claim C10: ActivityCreate validation accepts a duration_minutes value iff
it lies between 1 and 1440 inclusive; any payload with an out-of-range
duration is rejected, and an in-range duration is never the cause of a
rejection. -/
theorem C10_duration_validation :
    (∀ p : ActivityPayload, (validateActivity p).isSome = true →
        1 ≤ p.duration_minutes ∧ p.duration_minutes ≤ 1440)
    ∧ (∀ p : ActivityPayload, notesOk p = true → moodOk p = true →
        pyStrip p.category ≠ "" →
        ((validateActivity p).isSome = true
          ↔ (1 ≤ p.duration_minutes ∧ p.duration_minutes ≤ 1440))) := by
  constructor
  · intro p hp
    have h := (validateActivity_isSome_iff p).mp hp
    have hd := h.2.1
    unfold durationOk at hd
    exact of_decide_eq_true hd
  · intro p hn hm hs
    rw [validateActivity_isSome_iff p]
    constructor
    · intro h
      have hd := h.2.1
      unfold durationOk at hd
      exact of_decide_eq_true hd
    · intro hrange
      refine ⟨hs, ?_, hn, hm⟩
      unfold durationOk
      exact decide_eq_true hrange

/-- Witness for C10: a plain 60-minute payload is accepted exactly because 60
is in range. -/
theorem C10_witness :
    notesOk ⟨"Sleep", 60, none, none, none, none⟩ = true
    ∧ moodOk ⟨"Sleep", 60, none, none, none, none⟩ = true
    ∧ pyStrip (ActivityPayload.category ⟨"Sleep", 60, none, none, none, none⟩) ≠ ""
    ∧ ((validateActivity ⟨"Sleep", 60, none, none, none, none⟩).isSome = true
        ↔ (1 ≤ (⟨"Sleep", 60, none, none, none, none⟩ : ActivityPayload).duration_minutes
            ∧ (⟨"Sleep", 60, none, none, none, none⟩ : ActivityPayload).duration_minutes ≤ 1440)) :=
  ⟨by decide, by decide, by decide,
   C10_duration_validation.2 ⟨"Sleep", 60, none, none, none, none⟩
     (by decide) (by decide) (by decide)⟩

theorem countP_zeros (names : List String) :
    (names.map (fun c => (c, zeroCat))).countP
        (fun e => decide (0 < e.2.duration_minutes)) = 0 := by
  apply List.countP_eq_zero.mpr
  intro e he
  rw [List.mem_map] at he
  obtain ⟨c, _, rfl⟩ := he
  simp [zeroCat]

theorem countP_summaryCats (dr : List Rec) (T : Nat)
    (hdur : ∀ r ∈ dr, 1 ≤ r.duration_minutes) :
    (summaryCats dr T).countP (fun e => decide (0 < e.2.duration_minutes))
      = (firstDedup (dr.map (·.category))).length := by
  simp only [summaryCats]
  rw [List.countP_append, countP_zeros, Nat.add_zero]
  have hall : ∀ e ∈ (groupRows dr).map (rowEntry T),
      (fun e : String × CatSummary => decide (0 < e.2.duration_minutes)) e = true := by
    intro e he
    rw [List.mem_map] at he
    obtain ⟨row, hrow, rfl⟩ := he
    unfold groupRows at hrow
    rw [List.mem_map] at hrow
    obtain ⟨c, hcdedup, rfl⟩ := hrow
    have hcmem : c ∈ dr.map (·.category) := (mem_firstDedup c _).mp hcdedup
    rw [List.mem_map] at hcmem
    obtain ⟨r, hr, hrc⟩ := hcmem
    have hrfil : r ∈ dr.filter (fun r2 => decide (r2.category = c)) := by
      rw [List.mem_filter]
      exact ⟨hr, decide_eq_true hrc⟩
    have hpos : 0 < sumDur (dr.filter (fun r2 => decide (r2.category = c))) :=
      sumDur_pos_of_mem _ r hrfil (hdur r hr)
    exact decide_eq_true hpos
  rw [List.countP_eq_length.mpr hall, List.length_map]
  unfold groupRows
  rw [List.length_map]

/-- Claim C2: completion_percentage is the number of categories with positive
logged minutes over the number of registered categories, times 100, rounded
to one decimal; when every stored record has a positive duration the
numerator is the number of distinct categories among the day's records. -/
theorem C2_completion_formula (u : Nat) (dt : Date) (recs : List Rec) :
    (dailySummaryOn u dt recs).completion_percentage
      = round1 ((((dailySummaryOn u dt recs).categories.countP
            (fun e => decide (0 < e.2.duration_minutes))) : ℚ)
          / (categoryNames.length : ℚ) * 100)
    ∧ ((∀ r ∈ recs, 1 ≤ r.duration_minutes) →
        (dailySummaryOn u dt recs).categories.countP
            (fun e => decide (0 < e.2.duration_minutes))
          = (firstDedup ((dayRecs u (rataDie dt) recs).map (·.category))).length) := by
  constructor
  · rfl
  · intro hdur
    have hsub : ∀ r ∈ dayRecs u (rataDie dt) recs, 1 ≤ r.duration_minutes := by
      intro r hr
      unfold dayRecs at hr
      exact hdur r (List.mem_filter.mp hr).1
    exact countP_summaryCats (dayRecs u (rataDie dt) recs)
      (totalLogged (groupRows (dayRecs u (rataDie dt) recs))) hsub

/-- Witness for C2: two categories logged out of ten gives completion 20.0,
and the positive-duration count is the number of distinct logged categories. -/
theorem C2_witness :
    (∀ r ∈ [(⟨1, "Sleep", 480, some 4, 1⟩ : Rec), ⟨1, "Work/Productivity", 60, none, 1⟩],
        1 ≤ r.duration_minutes)
    ∧ (dailySummaryOn 1 ⟨1, 1, 1⟩
          [⟨1, "Sleep", 480, some 4, 1⟩, ⟨1, "Work/Productivity", 60, none, 1⟩]).categories.countP
            (fun e => decide (0 < e.2.duration_minutes))
        = (firstDedup ((dayRecs 1 (rataDie ⟨1, 1, 1⟩)
            [⟨1, "Sleep", 480, some 4, 1⟩, ⟨1, "Work/Productivity", 60, none, 1⟩]).map
              (·.category))).length
    ∧ (dailySummaryOn 1 ⟨1, 1, 1⟩
          [⟨1, "Sleep", 480, some 4, 1⟩, ⟨1, "Work/Productivity", 60, none, 1⟩]).completion_percentage
        = 20 :=
  ⟨by decide,
   (C2_completion_formula 1 ⟨1, 1, 1⟩
      [⟨1, "Sleep", 480, some 4, 1⟩, ⟨1, "Work/Productivity", 60, none, 1⟩]).2 (by decide),
   by with_unfolding_all decide⟩

/-- Claim C7: every analytics output enumerates every registered category:
the daily summary contains every registry key (a zero entry when the user has
no records for it that day), and GetTrends returns one entry per registered
category in registry order, all-zero when the category has no activity at
all. -/
theorem C7_registry_exhaustive (u : Nat) (dt : Date) (recs : List Rec) (today : Int) :
    (∀ c ∈ categoryNames,
        (lookupCat c (dailySummaryOn u dt recs).categories).isSome = true)
    ∧ (∀ c ∈ categoryNames,
        (∀ r ∈ dayRecs u (rataDie dt) recs, r.category ≠ c) →
        lookupCat c (dailySummaryOn u dt recs).categories = some zeroCat)
    ∧ ((get_trends today u recs).map (fun t => t.category) = categoryNames)
    ∧ (∀ c ∈ categoryNames, (∀ r ∈ recs, ¬(r.user_id = u ∧ r.category = c)) →
        ∀ t ∈ get_trends today u recs, t.category = c →
        t = { category := c, weekly_average := 0, monthly_average := 0,
              streak_days := 0, data_points := [] }) := by
  have hcats : (dailySummaryOn u dt recs).categories
      = summaryCats (dayRecs u (rataDie dt) recs)
          (totalLogged (groupRows (dayRecs u (rataDie dt) recs))) := rfl
  refine ⟨?_, ?_, ?_, ?_⟩
  · intro c hc
    rw [hcats]
    apply lookupCat_isSome_of_mem
    simp only [summaryCats, List.map_append]
    rw [List.mem_append]
    by_cases hg : c ∈ ((groupRows (dayRecs u (rataDie dt) recs)).map
        (rowEntry (totalLogged (groupRows (dayRecs u (rataDie dt) recs))))).map Prod.fst
    · exact Or.inl hg
    · right
      rw [List.map_map]
      have him : ((Prod.fst ∘ fun c2 => (c2, zeroCat)) : String → String) = id := rfl
      rw [him, List.map_id, List.mem_filter]
      exact ⟨hc, decide_eq_true hg⟩
  · intro c hc hnone
    have hnotin : c ∉ (dayRecs u (rataDie dt) recs).map (·.category) := by
      intro hmem
      rw [List.mem_map] at hmem
      obtain ⟨r, hr, hrc⟩ := hmem
      exact hnone r hr hrc
    have hgnot : c ∉ ((groupRows (dayRecs u (rataDie dt) recs)).map
        (rowEntry (totalLogged (groupRows (dayRecs u (rataDie dt) recs))))).map Prod.fst := by
      rw [keys_groupRows]
      intro hcon
      exact hnotin ((mem_firstDedup c _).mp hcon)
    rw [hcats]
    simp only [summaryCats]
    rw [lookupCat_append_of_not_mem c _ _ hgnot]
    apply lookupCat_map_const
    rw [List.mem_filter]
    exact ⟨hc, decide_eq_true hgnot⟩
  · unfold get_trends
    rw [List.map_map]
    exact (List.map_congr_left (fun c _ => rfl)).trans (List.map_id _)
  · intro c hc hnone t ht hctc
    rw [eq_trendFor_of_mem today u recs c t ht hctc]
    have hfil : ∀ cutoff : Int, windowRecs u c cutoff recs = [] := by
      intro cutoff
      apply List.filter_eq_nil_iff.mpr
      intro r hr
      simp only [decide_eq_true_eq]
      intro hcon
      exact hnone r hr ⟨hcon.1, hcon.2.1⟩
    have hcat : catDates u c recs = [] := by
      unfold catDates
      have hf : recs.filter (fun r => decide (r.user_id = u ∧ r.category = c)) = [] := by
        apply List.filter_eq_nil_iff.mpr
        intro r hr
        simp only [decide_eq_true_eq]
        exact hnone r hr
      rw [hf]
      rfl
    show trendFor today u recs c = _
    unfold trendFor distinctDatesDesc
    rw [hfil (today - 7), hfil (today - 30), hcat]
    rfl

/-- Witness for C7: with no records at all, Sleep still appears with a zero
summary entry and an all-zero trend entry, and the trends list covers the
registry in order. -/
theorem C7_witness :
    (lookupCat "Sleep" (dailySummaryOn 1 ⟨1, 1, 1⟩ []).categories).isSome = true
    ∧ lookupCat "Sleep" (dailySummaryOn 1 ⟨1, 1, 1⟩ []).categories = some zeroCat
    ∧ (get_trends 0 1 []).map (fun t => t.category) = categoryNames
    ∧ trendFor 0 1 [] "Sleep"
        = { category := "Sleep", weekly_average := 0, monthly_average := 0,
            streak_days := 0, data_points := [] } :=
  ⟨(C7_registry_exhaustive 1 ⟨1, 1, 1⟩ [] 0).1 "Sleep" (by decide),
   (C7_registry_exhaustive 1 ⟨1, 1, 1⟩ [] 0).2.1 "Sleep" (by decide) (by decide),
   (C7_registry_exhaustive 1 ⟨1, 1, 1⟩ [] 0).2.2.1,
   (C7_registry_exhaustive 1 ⟨1, 1, 1⟩ [] 0).2.2.2 "Sleep" (by decide) (by decide)
     (trendFor 0 1 [] "Sleep") (by with_unfolding_all decide) rfl⟩

set_option maxRecDepth 8000 in
/-- Counterexample to claim C3 as stated: the code's window has no upper
bound, so a future-dated record (allowed by activity creation) enters the
monthly average, while the claim's window `[today-30, today]` excludes it:
with a single Sleep record dated five days after today, the code reports a
monthly average of 100 but the claimed windowed average is 0. -/
theorem C3_claim_counterexample :
    (trendFor 1000 1 [⟨1, "Sleep", 100, none, 1005⟩] "Sleep").monthly_average = 100
    ∧ activeDayMeanWindow 970 1000 1 "Sleep" [⟨1, "Sleep", 100, none, 1005⟩] = 0
    ∧ (trendFor 1000 1 [⟨1, "Sleep", 100, none, 1005⟩] "Sleep").monthly_average
        ≠ activeDayMeanWindow 970 1000 1 "Sleep" [⟨1, "Sleep", 100, none, 1005⟩] := by
  with_unfolding_all decide

/-- Claim C3 amended: the monthly (resp. weekly) average reported by GetTrends
is the mean of the per-date totals over the distinct dates on or after
today-30 (resp. today-7) carrying at least one record of the category —
with no upper bound on the date, so future-dated records are included —
rounded to one decimal, and 0 when no such date exists. -/
theorem C3_average_window_amended (today : Int) (u : Nat) (recs : List Rec) (c : String) :
    ∀ t ∈ get_trends today u recs, t.category = c →
      t.monthly_average
          = (if (firstDedup ((windowRecs u c (today - 30) recs).map (·.activity_date))).length = 0
             then 0
             else round1 ((sumDur (windowRecs u c (today - 30) recs) : ℚ)
               / ((firstDedup ((windowRecs u c (today - 30) recs).map (·.activity_date))).length : ℚ)))
      ∧ t.weekly_average
          = (if (firstDedup ((windowRecs u c (today - 7) recs).map (·.activity_date))).length = 0
             then 0
             else round1 ((sumDur (windowRecs u c (today - 7) recs) : ℚ)
               / ((firstDedup ((windowRecs u c (today - 7) recs).map (·.activity_date))).length : ℚ))) := by
  intro t ht hc
  rw [eq_trendFor_of_mem today u recs c t ht hc]
  constructor
  · exact avgDailyTotal_eq (windowRecs u c (today - 30) recs)
  · exact avgDailyTotal_eq (windowRecs u c (today - 7) recs)

set_option maxRecDepth 8000 in
/-- Witness for the amended C3: one active day with 40 minutes in the last 30
days yields monthly_average 40.0 (not 40/30). -/
theorem C3_average_window_amended_witness :
    (trendFor 1000 1 [⟨1, "Sleep", 40, none, 995⟩] "Sleep").monthly_average
        = (if (firstDedup ((windowRecs 1 "Sleep" (1000 - 30)
              [⟨1, "Sleep", 40, none, 995⟩]).map (·.activity_date))).length = 0
           then 0
           else round1 ((sumDur (windowRecs 1 "Sleep" (1000 - 30)
               [⟨1, "Sleep", 40, none, 995⟩]) : ℚ)
             / ((firstDedup ((windowRecs 1 "Sleep" (1000 - 30)
                 [⟨1, "Sleep", 40, none, 995⟩]).map (·.activity_date))).length : ℚ)))
    ∧ (trendFor 1000 1 [⟨1, "Sleep", 40, none, 995⟩] "Sleep").monthly_average = 40 :=
  ⟨(C3_average_window_amended 1000 1 [⟨1, "Sleep", 40, none, 995⟩] "Sleep"
      (trendFor 1000 1 [⟨1, "Sleep", 40, none, 995⟩] "Sleep")
      (by with_unfolding_all decide) rfl).1,
   by with_unfolding_all decide⟩

/-- Claim C4: when the distinct activity dates of a category form exactly an
unbroken run of N consecutive days ending today, GetTrends reports
streak_days = N, and this agrees with the reference streak algorithm run on
the distinct-date set. -/
theorem C4_streak_run_length (today : Int) (u : Nat) (recs : List Rec) (c : String) (N : Nat)
    (hrun : ∀ d : Int, d ∈ catDates u c recs ↔ ∃ i : Nat, i < N ∧ d = today - (i : Int)) :
    ∀ t ∈ get_trends today u recs, t.category = c →
      t.streak_days = N
      ∧ t.streak_days = streakRef (firstDedup (catDates u c recs)) today := by
  intro t ht hc
  rw [eq_trendFor_of_mem today u recs c t ht hc]
  have hmemD : ∀ d : Int, d ∈ firstDedup (catDates u c recs) ↔ d ∈ runList N today := by
    intro d
    rw [mem_firstDedup, hrun d, mem_runList]
  have hS : List.insertionSort (fun a b : Int => a ≥ b) (firstDedup (catDates u c recs))
      = runList N today :=
    insertionSort_ge_eq_of_mem_iff _ _ (nodup_firstDedup _) (nodup_runList N today)
      (sorted_runList N today) hmemD
  have hlen : (firstDedup (catDates u c recs)).length = N := by
    have h1 : (List.insertionSort (fun a b : Int => a ≥ b)
        (firstDedup (catDates u c recs))).length = (firstDedup (catDates u c recs)).length :=
      (List.perm_insertionSort _ _).length_eq
    have h2 : (runList N today).length = N := by
      unfold runList
      rw [List.length_map, List.length_range]
    rw [hS] at h1
    omega
  have hstreak : streakLoop (distinctDatesDesc u c recs) today = N := by
    unfold distinctDatesDesc
    rw [hS]
    exact streakLoop_runList N today
  refine ⟨hstreak, ?_⟩
  show streakLoop (distinctDatesDesc u c recs) today = _
  rw [hstreak]
  unfold streakRef
  rw [hlen]
  symm
  apply streakRefAux_run
  · intro i hi
    rw [mem_firstDedup, hrun]
    exact ⟨i, hi, rfl⟩
  · rw [mem_firstDedup, hrun]
    rintro ⟨i, hi, heq⟩
    have h3 : (i : Int) = (N : Int) := by linarith
    have h4 : i = N := by exact_mod_cast h3
    omega
  · omega

set_option maxRecDepth 8000 in
/-- Witness for C4: Sleep records on today and yesterday (a run of two days)
give streak_days = 2, matching the reference algorithm. -/
theorem C4_witness :
    (trendFor 1000 1 [⟨1, "Sleep", 60, none, 1000⟩, ⟨1, "Sleep", 30, none, 999⟩]
        "Sleep").streak_days = 2
    ∧ (trendFor 1000 1 [⟨1, "Sleep", 60, none, 1000⟩, ⟨1, "Sleep", 30, none, 999⟩]
          "Sleep").streak_days
        = streakRef (firstDedup (catDates 1 "Sleep"
            [⟨1, "Sleep", 60, none, 1000⟩, ⟨1, "Sleep", 30, none, 999⟩])) 1000 := by
  have hcd : catDates 1 "Sleep" [⟨1, "Sleep", 60, none, 1000⟩, ⟨1, "Sleep", 30, none, 999⟩]
      = [1000, 999] := by decide
  refine C4_streak_run_length 1000 1 _ "Sleep" 2 ?_ _ (by with_unfolding_all decide) rfl
  intro d
  rw [hcd]
  simp only [List.mem_cons, List.not_mem_nil, or_false]
  constructor
  · rintro (rfl | rfl)
    · exact ⟨0, by omega, by norm_num⟩
    · exact ⟨1, by omega, by norm_num⟩
  · rintro ⟨i, hi, rfl⟩
    interval_cases i
    · left
      norm_num
    · right
      norm_num

theorem summaryCats_percentage_sum (dr : List Rec)
    (h : 0 < totalLogged (groupRows dr)) :
    |((summaryCats dr (totalLogged (groupRows dr))).map (fun e => e.2.percentage)).sum - 100|
      ≤ ((firstDedup (dr.map (·.category))).length : ℚ) / 20 := by
  simp only [summaryCats]
  rw [List.map_append, List.sum_append, sum_percentage_zeros, add_zero, List.map_map]
  have hptw : (groupRows dr).map
        ((fun e : String × CatSummary => e.2.percentage) ∘ rowEntry (totalLogged (groupRows dr)))
      = ((groupRows dr).map (fun row =>
          (row.total_minutes : ℚ) / ((totalLogged (groupRows dr) : Nat) : ℚ) * 100)).map round1 := by
    rw [List.map_map]
    apply List.map_congr_left
    intro row _
    show (if 0 < totalLogged (groupRows dr)
        then round1 ((row.total_minutes : ℚ) / ((totalLogged (groupRows dr) : Nat) : ℚ) * 100)
        else 0) = _
    rw [if_pos h]
    rfl
  rw [hptw]
  have hsum : ((groupRows dr).map (fun row =>
      (row.total_minutes : ℚ) / ((totalLogged (groupRows dr) : Nat) : ℚ) * 100)).sum = 100 := by
    rw [sum_map_div_mul]
    have hc : ((groupRows dr).map (fun row => (row.total_minutes : ℚ))).sum
        = ((totalLogged (groupRows dr) : Nat) : ℚ) := by
      have hmm2 : (groupRows dr).map (fun row => (row.total_minutes : ℚ))
          = ((groupRows dr).map (·.total_minutes)).map (Nat.cast) := by
        rw [List.map_map]
        rfl
      rw [hmm2, ← Nat.cast_list_sum]
      rfl
    rw [hc]
    have hT0 : ((totalLogged (groupRows dr) : Nat) : ℚ) ≠ 0 :=
      Nat.cast_ne_zero.mpr (by omega)
    rw [div_self hT0, one_mul]
  have hb := abs_sum_round1_sub ((groupRows dr).map (fun row =>
      (row.total_minutes : ℚ) / ((totalLogged (groupRows dr) : Nat) : ℚ) * 100))
  rw [hsum, List.length_map] at hb
  have hlen2 : (groupRows dr).length = (firstDedup (dr.map (·.category))).length := by
    unfold groupRows
    rw [List.length_map]
  rw [hlen2] at hb
  have heq : ((firstDedup (dr.map (·.category))).length : ℚ) * (1 / 20)
      = ((firstDedup (dr.map (·.category))).length : ℚ) / 20 := by
    ring
  rw [heq] at hb
  exact hb

/-- Counterexample to claim C5 as stated: with five logged categories whose
exact percentages are 20.04 (four times) and 19.84, each rounds down, and the
rounded percentages sum to 99.8, which misses 100 by 0.2 — outside the
claimed ±0.1 tolerance — while total_logged_minutes = 5000 > 0. -/
theorem C5_claim_counterexample :
    0 < (dailySummaryOn 1 ⟨1, 1, 1⟩
        [⟨1, "Sleep", 1002, none, 1⟩, ⟨1, "Physical Activity/Exercise", 1002, none, 1⟩,
         ⟨1, "Nutrition/Meals", 1002, none, 1⟩, ⟨1, "Work/Productivity", 1002, none, 1⟩,
         ⟨1, "Personal Care/Hygiene", 992, none, 1⟩]).total_logged_minutes
    ∧ ¬ (|((dailySummaryOn 1 ⟨1, 1, 1⟩
          [⟨1, "Sleep", 1002, none, 1⟩, ⟨1, "Physical Activity/Exercise", 1002, none, 1⟩,
           ⟨1, "Nutrition/Meals", 1002, none, 1⟩, ⟨1, "Work/Productivity", 1002, none, 1⟩,
           ⟨1, "Personal Care/Hygiene", 992, none, 1⟩]).categories.map
            (fun e => e.2.percentage)).sum - 100| ≤ 1 / 10) := by
  with_unfolding_all decide

/-- Claim C5 amended: whenever total_logged_minutes > 0, the per-category
percentages sum to 100 within ±0.05 times the number of distinct categories
logged that day (each rounded percentage is off by at most 0.05); the fixed
±0.1 tolerance of the original claim holds only for up to two logged
categories. -/
theorem C5_percentage_sum_bound (u : Nat) (dt : Date) (recs : List Rec)
    (h : 0 < (dailySummaryOn u dt recs).total_logged_minutes) :
    |((dailySummaryOn u dt recs).categories.map (fun e => e.2.percentage)).sum - 100|
      ≤ ((firstDedup ((dayRecs u (rataDie dt) recs).map (·.category))).length : ℚ) / 20 := by
  have hcats : (dailySummaryOn u dt recs).categories
      = summaryCats (dayRecs u (rataDie dt) recs)
          (totalLogged (groupRows (dayRecs u (rataDie dt) recs))) := rfl
  have htot : (dailySummaryOn u dt recs).total_logged_minutes
      = totalLogged (groupRows (dayRecs u (rataDie dt) recs)) := rfl
  rw [htot] at h
  rw [hcats]
  exact summaryCats_percentage_sum _ h

set_option maxRecDepth 8000 in
/-- Witness for the amended C5: the spec's own scenario (480 Sleep + 60 Work)
has positive total, and its percentage sum 88.9 + 11.1 = 100 is within the
amended two-category bound 0.1. -/
theorem C5_percentage_sum_bound_witness :
    0 < (dailySummaryOn 1 ⟨1, 1, 1⟩
        [⟨1, "Sleep", 480, some 4, 1⟩, ⟨1, "Work/Productivity", 60, none, 1⟩]).total_logged_minutes
    ∧ |((dailySummaryOn 1 ⟨1, 1, 1⟩
          [⟨1, "Sleep", 480, some 4, 1⟩, ⟨1, "Work/Productivity", 60, none, 1⟩]).categories.map
            (fun e => e.2.percentage)).sum - 100|
        ≤ ((firstDedup ((dayRecs 1 (rataDie ⟨1, 1, 1⟩)
            [⟨1, "Sleep", 480, some 4, 1⟩, ⟨1, "Work/Productivity", 60, none, 1⟩]).map
              (·.category))).length : ℚ) / 20 :=
  ⟨by decide,
   C5_percentage_sum_bound 1 ⟨1, 1, 1⟩
     [⟨1, "Sleep", 480, some 4, 1⟩, ⟨1, "Work/Productivity", 60, none, 1⟩] (by decide)⟩
